import Mathlib

/-!
Shallow embedding of the contact-manager core (`app.py`): field validators
(`Name`, `Phone`, `Birthday`), `Record`, `AddressBook`, and the command
handlers (`add_contact`, `change_contact`, `show_phone`, `show_all_contacts`,
`add_birthday`, `show_birthday`, `birthdays`) together with the
`input_error` catch-and-stringify wrapper.

Python exceptions are modelled with `Except String`; in-place mutation of the
address book is modelled by explicit state passing, where a handler returns
the (possibly partially mutated) book alongside its outcome, so that
mutations committed before an exception persist exactly as they do in the
source.  Strings are Lean `String`s; `str.lower()` and `str.isdigit()` are
modelled on the ASCII range (the range exercised by the program's digit and
letter handling).
-/

set_option autoImplicit false

namespace App

/-- Error message raised by `Phone.__init__` on a malformed value. -/
def phoneFormatMsg : String := "Phone number must be a 10-digit number."

/-- Error message raised by `Record.add_phone` on a duplicate value. -/
def phoneExistsMsg : String := "Phone number already exists."

/-- Error message raised by `Birthday.__init__` on an unparsable value. -/
def dateFormatMsg : String := "Invalid date format. Use DD.MM.YYYY"

/-- Model of Python `str.isdigit()` on the ASCII range: non-empty and every
character a decimal digit. -/
def pyIsDigit (s : String) : Bool :=
  !s.data.isEmpty && s.data.all Char.isDigit

/-- `Phone` wraps a validated value (`Phone.__init__`):
`if len(value) != 10 or not value.isdigit(): raise ValueError(...)`. -/
structure Phone where
  value : String
deriving DecidableEq, Repr

/-- `Phone(value)` as a fallible constructor. -/
def Phone.mk? (value : String) : Except String Phone :=
  if value.length != 10 || !(pyIsDigit value) then .error phoneFormatMsg
  else .ok ⟨value⟩

/-- A calendar date as stored by `datetime` (no time component is ever used
by the program). -/
structure Date where
  year : Nat
  month : Nat
  day : Nat
deriving DecidableEq, Repr

/-- Gregorian leap-year rule used by Python `datetime`. -/
def isLeap (y : Nat) : Bool :=
  y % 4 == 0 && (y % 100 != 0 || y % 400 == 0)

/-- Days in a month, as enforced by the `datetime` constructor. -/
def daysInMonth (y m : Nat) : Nat :=
  if m == 2 then (if isLeap y then 29 else 28)
  else if m == 4 || m == 6 || m == 9 || m == 11 then 30
  else 31

/-- Validity check performed by the `datetime(year, month, day)` constructor:
`MINYEAR <= year <= MAXYEAR`, `1 <= month <= 12`, `1 <= day <= days in month`. -/
def dateOk (y m d : Nat) : Bool :=
  1 ≤ y && y ≤ 9999 && 1 ≤ m && m ≤ 12 && 1 ≤ d && d ≤ daysInMonth y m

/-- Numeric value of a digit character. -/
def digitVal (c : Char) : Nat := c.toNat - 48

/-- Value of a string of digit characters, most significant first. -/
def natOfDigits (l : List Char) : Nat :=
  l.foldl (fun n c => n * 10 + digitVal c) 0

/-- Splitter state for `splitDots`: current (first) segment and the remaining
segments. -/
def splitDotsAux : List Char → List Char × List (List Char)
  | [] => ([], [])
  | c :: rest =>
    let (seg, segs) := splitDotsAux rest
    if c = '.' then ([], seg :: segs)
    else (c :: seg, segs)

/-- Split a character list at every `'.'`; always returns at least one
segment, and the segments are exactly the maximal dot-free runs. -/
def splitDots (l : List Char) : List (List Char) :=
  (splitDotsAux l).1 :: (splitDotsAux l).2

/-- Inverse of `splitDots`: interleave `'.'` between the segments. -/
def joinDots : List (List Char) → List Char
  | [] => []
  | [s] => s
  | s :: rest => s ++ '.' :: joinDots rest

/-- The strings matched by the `%d` directive of `strptime` (regex
`3[01]|[12]\d|0[1-9]|[1-9]`): one or two digit characters denoting a day
value between 1 and 31 (a one-digit form only for 1..9, a two-digit form
optionally zero-padded). -/
def dayTokenOk (t : List Char) : Bool :=
  t.all Char.isDigit && (t.length == 1 || t.length == 2) &&
    1 ≤ natOfDigits t && natOfDigits t ≤ 31

/-- The strings matched by the `%m` directive of `strptime` (regex
`1[0-2]|0[1-9]|[1-9]`): one or two digit characters denoting a month value
between 1 and 12. -/
def monthTokenOk (t : List Char) : Bool :=
  t.all Char.isDigit && (t.length == 1 || t.length == 2) &&
    1 ≤ natOfDigits t && natOfDigits t ≤ 12

/-- The strings matched by the `%Y` directive of `strptime` (regex
`\d\d\d\d`): exactly four digit characters. -/
def yearTokenOk (t : List Char) : Bool :=
  t.all Char.isDigit && t.length == 4

/-- Model of `datetime.strptime(value, "%d.%m.%Y")` wrapped by
`Birthday.__init__`: the whole input must be day-token `.` month-token `.`
year-token (so exactly two dots, with digit-only tokens as matched by the
`%d`/`%m`/`%Y` regexes), and the resulting numbers must form a valid
calendar date; any failure is re-raised as `dateFormatMsg`. -/
def Birthday.mk? (value : String) : Except String Date :=
  match splitDots value.data with
  | [d, m, y] =>
    if dayTokenOk d && monthTokenOk m && yearTokenOk y then
      if dateOk (natOfDigits y) (natOfDigits m) (natOfDigits d) then
        .ok ⟨natOfDigits y, natOfDigits m, natOfDigits d⟩
      else .error dateFormatMsg
    else .error dateFormatMsg
  | _ => .error dateFormatMsg

/-- The character for a decimal digit value (`n % 10`). -/
def digitChar (n : Nat) : Char := Char.ofNat (48 + n % 10)

/-- Two-character zero-padded decimal rendering (`strftime` `%d` / `%m`). -/
def twoDigits (n : Nat) : List Char :=
  [digitChar (n / 10), digitChar n]

/-- Four-character zero-padded decimal rendering (`strftime` `%Y` for the
four-digit years the program stores). -/
def fourDigits (n : Nat) : List Char :=
  [digitChar (n / 1000), digitChar (n / 100), digitChar (n / 10), digitChar n]

/-- Model of `value.strftime('%d.%m.%Y')` on a stored date. -/
def Date.strftimeDMY (d : Date) : String :=
  ⟨twoDigits d.day ++ '.' :: twoDigits d.month ++ '.' :: fourDigits d.year⟩

/-- A contact `Record`: a name (stored verbatim by `Name.__init__`), an
ordered list of phones, and an optional birthday. -/
structure Record where
  name : String
  phones : List Phone
  birthday : Option Date
deriving DecidableEq, Repr

/-- `Record.__init__`: name set, no phones, no birthday. -/
def Record.new (name : String) : Record := ⟨name, [], none⟩

/-- `Record.add_phone`: scan for an existing phone with the same raw value
(raising `phoneExistsMsg`), then construct and append the `Phone`. -/
def Record.add_phone (r : Record) (value : String) : Except String Record :=
  if r.phones.any (fun phone => phone.value == value) then .error phoneExistsMsg
  else
    match Phone.mk? value with
    | .error e => .error e
    | .ok p => .ok { r with phones := r.phones ++ [p] }

/-- `Record.add_birthday`: construct the `Birthday`, then overwrite the
field (the assignment happens only after a successful construction). -/
def Record.add_birthday (r : Record) (value : String) : Except String Record :=
  match Birthday.mk? value with
  | .error e => .error e
  | .ok b => .ok { r with birthday := some b }

/-- The `AddressBook`: an ordered list of contacts. -/
structure AddressBook where
  contacts : List Record
deriving DecidableEq, Repr

/-- Model of Python `str.lower()` on the ASCII range. -/
def nameKey (s : String) : String := ⟨s.data.map Char.toLower⟩

/-- The scan loop of `AddressBook.find`, additionally reporting the position
of the returned record so that in-place mutation through the returned
reference can be modelled by writing back at that position. -/
def AddressBook.findAux (name : String) : Nat → List Record → Option (Nat × Record)
  | _, [] => none
  | i, contact :: rest =>
    if nameKey contact.name == nameKey name then some (i, contact)
    else AddressBook.findAux name (i + 1) rest

/-- `AddressBook.find` with the position of the match (the Python reference
into `self.contacts`). -/
def AddressBook.findRef (book : AddressBook) (name : String) : Option (Nat × Record) :=
  AddressBook.findAux name 0 book.contacts

/-- `AddressBook.find`: first record whose lowercased name equals the
lowercased query, else `None`. -/
def AddressBook.find (book : AddressBook) (name : String) : Option Record :=
  (book.findRef name).map Prod.snd

/-- `AddressBook.add_record`: append. -/
def AddressBook.add_record (book : AddressBook) (record : Record) : AddressBook :=
  ⟨book.contacts ++ [record]⟩

/-- Write a (mutated) record back at its position. -/
def AddressBook.setRecord (book : AddressBook) (i : Nat) (r : Record) : AddressBook :=
  ⟨book.contacts.set i r⟩

/-- The `input_error` decorator, modelled as a function on a handler body's
outcome: a raised error `e` becomes the string `"Error: " ++ e`, a normal
return passes through; either way the book is whatever the body left. -/
def input_error (result : Except String String × AddressBook) : String × AddressBook :=
  match result with
  | (.ok s, book) => (s, book)
  | (.error e, book) => ("Error: " ++ e, book)

/-- Handler body of `add_contact`.  Note the order of operations from the
source: a missing record is created and appended to the book before the
phone is validated, and the phone is only added when it is non-empty
(`if phone:`).  Mutating the freshly appended record through the Python
reference is modelled by appending the mutated record instead. -/
def add_contact (args : List String) (book : AddressBook) :
    Except String String × AddressBook :=
  match args with
  | name :: phone :: _ =>
    match book.findRef name with
    | none =>
      let record := Record.new name
      let book1 := book.add_record record
      if phone == "" then (.ok "Contact added.", book1)
      else
        match record.add_phone phone with
        | .error e => (.error e, book1)
        | .ok r' => (.ok ("Contact added." ++ " Phone number: " ++ phone), book.add_record r')
    | some (i, record) =>
      if phone == "" then (.ok "Contact updated.", book)
      else
        match record.add_phone phone with
        | .error e => (.error e, book)
        | .ok r' =>
          (.ok ("Contact updated." ++ " Phone number: " ++ phone), book.setRecord i r')
  | _ => (.ok "Invalid command. Use \x27add [name] [phone]\x27.", book)

/-- Handler body of `change_contact`: on a found record, `record.phones = []`
is committed first, then `add_phone(new_phone)` runs on the cleared record;
a failure there leaves the cleared list in place. -/
def change_contact (args : List String) (book : AddressBook) :
    Except String String × AddressBook :=
  match args with
  | [name, new_phone] =>
    match book.findRef name with
    | some (i, record) =>
      let cleared := { record with phones := [] }
      match cleared.add_phone new_phone with
      | .error e => (.error e, book.setRecord i cleared)
      | .ok r' => (.ok ("Phone number changed for " ++ name ++ "."), book.setRecord i r')
    | none => (.ok ("Contact " ++ name ++ " not found."), book)
  | _ => (.ok "Invalid command. Please use \x27change [name] [new_phone]\x27.", book)

/-- Handler body of `show_phone`: pure query. -/
def show_phone (args : List String) (book : AddressBook) :
    Except String String × AddressBook :=
  match args with
  | [name] =>
    match book.findRef name with
    | some (_, record) =>
      if !record.phones.isEmpty then
        (.ok (name ++ "\x27s phone number is: " ++
          String.intercalate ", " (record.phones.map Phone.value)), book)
      else (.ok (name ++ " doesn\x27t have a phone number set."), book)
    | none => (.ok ("Contact " ++ name ++ " not found."), book)
  | _ => (.ok "Invalid command. Use \x27phone [name]\x27.", book)

/-- Handler body of `show_all_contacts`: returns the record list itself. -/
def show_all_contacts (book : AddressBook) : Except String (List Record) × AddressBook :=
  (.ok book.contacts, book)

/-- Handler body of `add_birthday`. -/
def add_birthday (args : List String) (book : AddressBook) :
    Except String String × AddressBook :=
  match args with
  | [name, date] =>
    match book.findRef name with
    | some (i, record) =>
      match record.add_birthday date with
      | .error e => (.error e, book)
      | .ok r' => (.ok ("Birthday added for " ++ name ++ "."), book.setRecord i r')
    | none => (.ok ("Contact " ++ name ++ " not found."), book)
  | _ => (.ok "Invalid command. Use \x27add-birthday [name] [date]\x27.", book)

/-- Handler body of `show_birthday`: pure query. -/
def show_birthday (args : List String) (book : AddressBook) :
    Except String String × AddressBook :=
  match args with
  | [name] =>
    match book.findRef name with
    | some (_, record) =>
      match record.birthday with
      | some b => (.ok (name ++ "\x27s birthday is: " ++ Date.strftimeDMY b), book)
      | none => (.ok (name ++ " doesn\x27t have a birthday set."), book)
    | none => (.ok ("Contact " ++ name ++ " not found."), book)
  | _ => (.ok "Invalid command. Use \x27show-birthday [name]\x27.", book)

/-- Handler body of `birthdays`: pure query, newline-joined
`"name: date"` lines or the fixed no-birthdays message. -/
def birthdays (book : AddressBook) : Except String String × AddressBook :=
  let all_birthdays := book.contacts.filterMap fun contact =>
    contact.birthday.map fun b => contact.name ++ ": " ++ Date.strftimeDMY b
  if !all_birthdays.isEmpty then (.ok (String.intercalate "\n" all_birthdays), book)
  else (.ok "No birthdays found.", book)

/-- The three `ValidationError` messages the program can raise. -/
def validationMessages : List String := [phoneFormatMsg, phoneExistsMsg, dateFormatMsg]

/-- Spec-level description of the strings accepted by `Birthday`: the text
decomposes as `day.month.year` where the day is one or two digits denoting
1..31, the month is one or two digits denoting 1..12, the year is exactly
four digits, and the three numbers form a valid calendar date. -/
def birthdayAccepted (value : String) : Prop :=
  ∃ ds ms ys : List Char,
    value.data = ds ++ '.' :: (ms ++ '.' :: ys) ∧
    dayTokenOk ds = true ∧ monthTokenOk ms = true ∧ yearTokenOk ys = true ∧
    dateOk (natOfDigits ys) (natOfDigits ms) (natOfDigits ds) = true

/-- A handler outcome raises only the program's three `ValidationError`
messages: if its first component is an error, the message is one of them. -/
def errOnly (res : Except String String × AddressBook) : Prop :=
  ∀ e : String, res.1 = .error e → e ∈ validationMessages

/-! ### Lemmas about the dot splitter -/

theorem splitDotsAux_cons (c : Char) (l : List Char) :
    splitDotsAux (c :: l) =
      if c = '.' then ([], (splitDotsAux l).1 :: (splitDotsAux l).2)
      else (c :: (splitDotsAux l).1, (splitDotsAux l).2) := by
  rcases hsa : splitDotsAux l with ⟨seg, segs⟩
  simp [splitDotsAux, hsa]

theorem splitDotsAux_of_not_mem (l : List Char) (h : '.' ∉ l) :
    splitDotsAux l = (l, []) := by
  induction l with
  | nil => rfl
  | cons c rest ih =>
    simp only [List.mem_cons, not_or] at h
    rw [splitDotsAux_cons, if_neg (fun hc => h.1 hc.symm), ih h.2]

theorem splitDotsAux_append_of_not_mem (a l : List Char) (h : '.' ∉ a) :
    splitDotsAux (a ++ l) = (a ++ (splitDotsAux l).1, (splitDotsAux l).2) := by
  induction a with
  | nil => simp
  | cons c rest ih =>
    simp only [List.mem_cons, not_or] at h
    rw [List.cons_append, splitDotsAux_cons, if_neg (fun hc => h.1 hc.symm), ih h.2,
      List.cons_append]

theorem not_mem_splitDotsAux (l : List Char) :
    '.' ∉ (splitDotsAux l).1 ∧ ∀ s ∈ (splitDotsAux l).2, '.' ∉ s := by
  induction l with
  | nil => simp [splitDotsAux]
  | cons c rest ih =>
    rw [splitDotsAux_cons]
    by_cases hc : c = '.'
    · simp only [if_pos hc]
      exact ⟨by simp, by
        intro s hs
        rcases List.mem_cons.mp hs with h1 | h2
        · exact h1 ▸ ih.1
        · exact ih.2 s h2⟩
    · simp only [if_neg hc]
      refine ⟨?_, ih.2⟩
      intro hmem
      rcases List.mem_cons.mp hmem with h1 | h2
      · exact hc h1.symm
      · exact ih.1 h2

theorem joinDots_cons_head (c : Char) (s : List Char) (segs : List (List Char)) :
    joinDots ((c :: s) :: segs) = c :: joinDots (s :: segs) := by
  cases segs <;> rfl

theorem joinDots_splitDots (l : List Char) : joinDots (splitDots l) = l := by
  induction l with
  | nil => rfl
  | cons c rest ih =>
    unfold splitDots
    rw [splitDotsAux_cons]
    by_cases hc : c = '.'
    · subst hc
      simp only [if_pos rfl]
      show ('.' : Char) :: joinDots (splitDots rest) = '.' :: rest
      rw [ih]
    · simp only [if_neg hc]
      rw [joinDots_cons_head]
      show c :: joinDots (splitDots rest) = c :: rest
      rw [ih]

/-- A list of characters splits at dots into exactly three segments iff it is
the concatenation of three dot-free segments separated by single dots. -/
theorem splitDots_eq_three_iff (l a b c : List Char) :
    splitDots l = [a, b, c] ↔
      '.' ∉ a ∧ '.' ∉ b ∧ '.' ∉ c ∧ l = a ++ '.' :: (b ++ '.' :: c) := by
  constructor
  · intro h
    have hnm := not_mem_splitDotsAux l
    have h1 : (splitDotsAux l).1 = a := by
      have := congrArg List.head? h
      simpa [splitDots] using this
    have h2 : (splitDotsAux l).2 = [b, c] := by
      have := congrArg List.tail h
      simpa [splitDots] using this
    refine ⟨h1 ▸ hnm.1, hnm.2 b (by rw [h2]; simp), hnm.2 c (by rw [h2]; simp), ?_⟩
    have hj := joinDots_splitDots l
    rw [h] at hj
    rw [← hj]
    show a ++ '.' :: joinDots [b, c] = _
    rfl
  · rintro ⟨ha, hb, hc, rfl⟩
    have hsc : splitDotsAux c = (c, []) := splitDotsAux_of_not_mem c hc
    have hdc : splitDotsAux ('.' :: c) = ([], [c]) := by
      rw [splitDotsAux_cons, if_pos rfl, hsc]
    have hbc : splitDotsAux (b ++ '.' :: c) = (b, [c]) := by
      rw [splitDotsAux_append_of_not_mem _ _ hb, hdc]
      simp
    have hdbc : splitDotsAux ('.' :: (b ++ '.' :: c)) = ([], [b, c]) := by
      rw [splitDotsAux_cons, if_pos rfl, hbc]
    have habc : splitDotsAux (a ++ '.' :: (b ++ '.' :: c)) = (a, [b, c]) := by
      rw [splitDotsAux_append_of_not_mem _ _ ha, hdbc]
      simp
    simp [splitDots, habc]

/-! ### Lemmas about digit characters and zero-padded rendering -/

theorem isDigit_iff_toNat (c : Char) :
    c.isDigit = true ↔ 48 ≤ c.toNat ∧ c.toNat ≤ 57 := by
  simp only [Char.isDigit, Bool.and_eq_true, decide_eq_true_eq, ge_iff_le,
    UInt32.le_def, BitVec.le_def, Char.toNat, UInt32.toNat]
  constructor
  · rintro ⟨h1, h2⟩
    exact ⟨h1, h2⟩
  · rintro ⟨h1, h2⟩
    exact ⟨h1, h2⟩

theorem dot_not_digit {c : Char} (h : c.isDigit = true) : c ≠ '.' := by
  rintro rfl
  exact absurd h (by decide)

theorem not_mem_of_all_digit {t : List Char} (h : t.all Char.isDigit = true) :
    '.' ∉ t := by
  intro hmem
  rw [List.all_eq_true] at h
  exact dot_not_digit (h '.' hmem) rfl

theorem digitVal_lt_ten {c : Char} (h : c.isDigit = true) : digitVal c < 10 := by
  rw [isDigit_iff_toNat] at h
  unfold digitVal
  omega

theorem ofNat_digit {c : Char} (h : c.isDigit = true) :
    Char.ofNat (48 + digitVal c) = c := by
  rw [isDigit_iff_toNat] at h
  have h2 : 48 + digitVal c = c.toNat := by unfold digitVal; omega
  rw [h2, Char.ofNat_toNat]

theorem digitChar_digitVal {c : Char} (h : c.isDigit = true) :
    digitChar (digitVal c) = c := by
  rw [digitChar, Nat.mod_eq_of_lt (digitVal_lt_ten h)]
  exact ofNat_digit h

theorem natOfDigits_pair (a b : Char) :
    natOfDigits [a, b] = digitVal a * 10 + digitVal b := by
  simp [natOfDigits]

theorem natOfDigits_quad (a b c d : Char) :
    natOfDigits [a, b, c, d] =
      ((digitVal a * 10 + digitVal b) * 10 + digitVal c) * 10 + digitVal d := by
  simp [natOfDigits]

theorem twoDigits_natOfDigits {a b : Char}
    (ha : a.isDigit = true) (hb : b.isDigit = true) :
    twoDigits (natOfDigits [a, b]) = [a, b] := by
  have hva := digitVal_lt_ten ha
  have hvb := digitVal_lt_ten hb
  rw [natOfDigits_pair, twoDigits]
  have h1 : (digitVal a * 10 + digitVal b) / 10 = digitVal a := by omega
  have h2 : (digitVal a * 10 + digitVal b) % 10 = digitVal b := by omega
  have e1 : digitChar ((digitVal a * 10 + digitVal b) / 10) = a := by
    rw [h1, digitChar_digitVal ha]
  have e2 : digitChar (digitVal a * 10 + digitVal b) = b := by
    rw [digitChar, h2]
    exact ofNat_digit hb
  rw [e1, e2]

theorem fourDigits_natOfDigits {a b c d : Char}
    (ha : a.isDigit = true) (hb : b.isDigit = true)
    (hc : c.isDigit = true) (hd : d.isDigit = true) :
    fourDigits (natOfDigits [a, b, c, d]) = [a, b, c, d] := by
  have hva := digitVal_lt_ten ha
  have hvb := digitVal_lt_ten hb
  have hvc := digitVal_lt_ten hc
  have hvd := digitVal_lt_ten hd
  rw [natOfDigits_quad, fourDigits]
  set n := ((digitVal a * 10 + digitVal b) * 10 + digitVal c) * 10 + digitVal d with hn
  have e1 : digitChar (n / 1000) = a := by
    have h : n / 1000 % 10 = digitVal a := by omega
    rw [digitChar, h]
    exact ofNat_digit ha
  have e2 : digitChar (n / 100) = b := by
    have h : n / 100 % 10 = digitVal b := by omega
    rw [digitChar, h]
    exact ofNat_digit hb
  have e3 : digitChar (n / 10) = c := by
    have h : n / 10 % 10 = digitVal c := by omega
    rw [digitChar, h]
    exact ofNat_digit hc
  have e4 : digitChar n = d := by
    have h : n % 10 = digitVal d := by omega
    rw [digitChar, h]
    exact ofNat_digit hd
  rw [e1, e2, e3, e4]

/-! ### Lemmas about the find scan -/

theorem findAux_none_iff (name : String) :
    ∀ (l : List Record) (i : Nat),
      AddressBook.findAux name i l = none ↔
        ∀ r ∈ l, nameKey r.name ≠ nameKey name := by
  intro l
  induction l with
  | nil => simp [AddressBook.findAux]
  | cons c rest ih =>
    intro i
    by_cases hc : nameKey c.name = nameKey name
    · simp [AddressBook.findAux, hc]
    · simp only [AddressBook.findAux, beq_iff_eq, if_neg hc, List.mem_cons]
      rw [ih (i + 1)]
      constructor
      · rintro h r (rfl | hr)
        · exact hc
        · exact h r hr
      · intro h r hr
        exact h r (Or.inr hr)

theorem findAux_some (name : String) :
    ∀ (l : List Record) (i j : Nat) (r : Record),
      AddressBook.findAux name i l = some (j, r) →
      i ≤ j ∧ j - i < l.length ∧ l[j - i]? = some r ∧
        nameKey r.name = nameKey name ∧
        ∀ k, k < j - i → ∀ r', l[k]? = some r' → nameKey r'.name ≠ nameKey name := by
  intro l
  induction l with
  | nil => intro i j r h; simp [AddressBook.findAux] at h
  | cons c rest ih =>
    intro i j r h
    by_cases hc : nameKey c.name = nameKey name
    · rw [AddressBook.findAux, if_pos (by simp [hc])] at h
      obtain ⟨rfl, rfl⟩ : j = i ∧ c = r := by
        constructor <;> [exact (Prod.mk.injEq _ _ _ _ ▸ Option.some.inj h).1.symm;
          exact (Prod.mk.injEq _ _ _ _ ▸ Option.some.inj h).2]
      refine ⟨Nat.le_refl _, by simp, by simp, hc, ?_⟩
      intro k hk
      omega
    · rw [AddressBook.findAux, if_neg (by simp [hc])] at h
      obtain ⟨h1, h2, h3, h4, h5⟩ := ih (i + 1) j r h
      have hji : j - i = (j - (i + 1)) + 1 := by omega
      refine ⟨by omega, by simp; omega, ?_, h4, ?_⟩
      · rw [hji]
        simpa using h3
      · intro k hk r' hr'
        match k with
        | 0 =>
          simp at hr'
          exact hr' ▸ hc
        | k' + 1 =>
          have : k' < j - (i + 1) := by omega
          exact h5 k' this r' (by simpa using hr')

theorem findRef_some {book : AddressBook} {name : String} {i : Nat} {r : Record}
    (h : book.findRef name = some (i, r)) :
    i < book.contacts.length ∧ book.contacts[i]? = some r ∧
      nameKey r.name = nameKey name ∧
      ∀ k, k < i → ∀ r', book.contacts[k]? = some r' →
        nameKey r'.name ≠ nameKey name := by
  obtain ⟨h1, h2, h3, h4, h5⟩ := findAux_some name book.contacts 0 i r h
  simpa using ⟨h2, h3, h4, h5⟩

theorem findRef_none_iff (book : AddressBook) (name : String) :
    book.findRef name = none ↔ ∀ r ∈ book.contacts, nameKey r.name ≠ nameKey name :=
  findAux_none_iff name book.contacts 0

/-! ### Characterizations of the fallible constructors and mutators -/

theorem Phone.mk?_spec (value : String) :
    Phone.mk? value =
      if value.length = 10 ∧ value.data.all Char.isDigit = true then .ok ⟨value⟩
      else .error phoneFormatMsg := by
  rw [Phone.mk?]
  by_cases h1 : value.length = 10
  · have hne : value.data.isEmpty = false := by
      have : value.data.length = 10 := h1
      cases hd : value.data with
      | nil => rw [hd] at this; simp at this
      | cons x xs => simp
    by_cases h2 : value.data.all Char.isDigit = true
    · simp [pyIsDigit, h1, h2, hne]
    · simp [pyIsDigit, h1, h2, hne, Bool.not_eq_true _ ▸ h2]
  · simp [pyIsDigit, h1]

theorem Record.add_phone_spec (r : Record) (value : String) :
    r.add_phone value =
      if r.phones.any (fun p => p.value == value) then .error phoneExistsMsg
      else if value.length = 10 ∧ value.data.all Char.isDigit = true then
        .ok { r with phones := r.phones ++ [⟨value⟩] }
      else .error phoneFormatMsg := by
  rw [Record.add_phone, Phone.mk?_spec]
  by_cases h : r.phones.any (fun p => p.value == value)
  · simp [h]
  · by_cases h2 : value.length = 10 ∧ value.data.all Char.isDigit = true
    · simp [h, h2]
    · simp only [if_neg h, if_neg h2]

theorem Birthday.mk?_error_msg {value e : String}
    (h : Birthday.mk? value = .error e) : e = dateFormatMsg := by
  rw [Birthday.mk?] at h
  split at h
  · split at h
    · split at h
      · exact absurd h (by simp)
      · exact (Except.error.inj h).symm
    · exact (Except.error.inj h).symm
  · exact (Except.error.inj h).symm

/-! ### Which strings `Birthday` accepts -/

theorem dayTokenOk_digits {t : List Char} (h : dayTokenOk t = true) :
    t.all Char.isDigit = true := by
  simp only [dayTokenOk, Bool.and_eq_true] at h
  exact h.1.1.1

theorem monthTokenOk_digits {t : List Char} (h : monthTokenOk t = true) :
    t.all Char.isDigit = true := by
  simp only [monthTokenOk, Bool.and_eq_true] at h
  exact h.1.1.1

theorem yearTokenOk_digits {t : List Char} (h : yearTokenOk t = true) :
    t.all Char.isDigit = true := by
  simp only [yearTokenOk, Bool.and_eq_true] at h
  exact h.1

theorem accepted_iff_split (value : String) :
    birthdayAccepted value ↔
      ∃ a b c, splitDots value.data = [a, b, c] ∧ dayTokenOk a = true ∧
        monthTokenOk b = true ∧ yearTokenOk c = true ∧
        dateOk (natOfDigits c) (natOfDigits b) (natOfDigits a) = true := by
  constructor
  · rintro ⟨ds, ms, ys, hdec, hd, hm, hy, hok⟩
    refine ⟨ds, ms, ys, ?_, hd, hm, hy, hok⟩
    rw [splitDots_eq_three_iff]
    exact ⟨not_mem_of_all_digit (dayTokenOk_digits hd),
      not_mem_of_all_digit (monthTokenOk_digits hm),
      not_mem_of_all_digit (yearTokenOk_digits hy), hdec⟩
  · rintro ⟨a, b, c, hs, hd, hm, hy, hok⟩
    obtain ⟨_, _, _, hdec⟩ := (splitDots_eq_three_iff _ _ _ _).mp hs
    exact ⟨a, b, c, hdec, hd, hm, hy, hok⟩

theorem Birthday.mk?_eq_ok_of {value : String} {a b c : List Char}
    (hs : splitDots value.data = [a, b, c]) (hd : dayTokenOk a = true)
    (hm : monthTokenOk b = true) (hy : yearTokenOk c = true)
    (hok : dateOk (natOfDigits c) (natOfDigits b) (natOfDigits a) = true) :
    Birthday.mk? value = .ok ⟨natOfDigits c, natOfDigits b, natOfDigits a⟩ := by
  simp [Birthday.mk?, hs, hd, hm, hy, hok]

theorem Birthday.mk?_ok_split {value : String} {d : Date}
    (h : Birthday.mk? value = .ok d) :
    ∃ a b c, splitDots value.data = [a, b, c] ∧ dayTokenOk a = true ∧
      monthTokenOk b = true ∧ yearTokenOk c = true ∧
      dateOk (natOfDigits c) (natOfDigits b) (natOfDigits a) = true ∧
      d = ⟨natOfDigits c, natOfDigits b, natOfDigits a⟩ := by
  rw [Birthday.mk?] at h
  split at h
  case h_1 a b c heq =>
    split at h
    case isTrue htok =>
      split at h
      case isTrue hok =>
        simp only [Bool.and_eq_true] at htok
        exact ⟨a, b, c, heq, htok.1.1, htok.1.2, htok.2, hok,
          (Except.ok.inj h).symm⟩
      case isFalse => exact absurd h (by simp)
    case isFalse => exact absurd h (by simp)
  case h_2 => exact absurd h (by simp)

theorem Birthday.mk?_error_not_accepted {value e : String}
    (h : Birthday.mk? value = .error e) : ¬ birthdayAccepted value := by
  intro hacc
  rw [accepted_iff_split] at hacc
  obtain ⟨a, b, c, hs, hd, hm, hy, hok⟩ := hacc
  rw [Birthday.mk?_eq_ok_of hs hd hm hy hok] at h
  exact absurd h (by simp)

theorem Birthday.mk?_ok_accepted {value : String} {d : Date}
    (h : Birthday.mk? value = .ok d) : birthdayAccepted value := by
  obtain ⟨a, b, c, hs, hd, hm, hy, hok, _⟩ := Birthday.mk?_ok_split h
  exact (accepted_iff_split value).mpr ⟨a, b, c, hs, hd, hm, hy, hok⟩

theorem list_of_length_two {α : Type} {t : List α} (h : t.length = 2) :
    ∃ x y, t = [x, y] := by
  cases t with
  | nil => simp at h
  | cons x t' =>
    cases t' with
    | nil => simp at h
    | cons y t'' =>
      cases t'' with
      | nil => exact ⟨x, y, rfl⟩
      | cons z t''' => simp at h

theorem list_of_length_four {α : Type} {t : List α} (h : t.length = 4) :
    ∃ x y z w, t = [x, y, z, w] := by
  cases t with
  | nil => simp at h
  | cons x t1 =>
    cases t1 with
    | nil => simp at h
    | cons y t2 =>
      cases t2 with
      | nil => simp at h
      | cons z t3 =>
        cases t3 with
        | nil => simp at h
        | cons w t4 =>
          cases t4 with
          | nil => exact ⟨x, y, z, w, rfl⟩
          | cons v t5 => simp at h

/-! ### Claim theorems -/

/-- C4: constructing a `Phone` succeeds iff the input is exactly 10
characters, all decimal digits; on success the stored value is the input
verbatim, and on any other input construction fails with the message
"Phone number must be a 10-digit number.". -/
theorem phone_construction_spec (value : String) :
    match Phone.mk? value with
    | .ok p => p.value = value ∧ value.length = 10 ∧ value.data.all Char.isDigit = true
    | .error e => e = phoneFormatMsg ∧
        ¬(value.length = 10 ∧ value.data.all Char.isDigit = true) := by
  rw [Phone.mk?_spec]
  by_cases h : value.length = 10 ∧ value.data.all Char.isDigit = true
  · rw [if_pos h]
    exact ⟨rfl, h⟩
  · rw [if_neg h]
    exact ⟨rfl, h⟩

/-- Witness for C4 at the concrete inputs "1234567890" (accepted) and
"12345678a0" (rejected). -/
theorem phone_construction_spec_witness :
    (("1234567890" : String).length = 10 ∧
      ("1234567890" : String).data.all Char.isDigit = true) ∧
    ¬(("12345678a0" : String).length = 10 ∧
      ("12345678a0" : String).data.all Char.isDigit = true) := by
  have h1 := phone_construction_spec "1234567890"
  have h2 := phone_construction_spec "12345678a0"
  rw [show Phone.mk? "1234567890" = .ok ⟨"1234567890"⟩ from rfl] at h1
  rw [show Phone.mk? "12345678a0" = .error phoneFormatMsg from rfl] at h2
  exact ⟨h1.2, h2.2⟩

/-- C7: `find` returns the first record (in insertion order) whose stored
name equals the query case-insensitively, and `none` on an empty book or
when no record matches; after adding "Alice", finding "alice" or "ALICE"
returns that record. -/
theorem find_first_case_insensitive :
    (∀ (book : AddressBook) (name : String) (r : Record),
        book.find name = some r →
        ∃ i : Nat, book.contacts[i]? = some r ∧ nameKey r.name = nameKey name ∧
          ∀ j : Nat, j < i → ∀ r' : Record, book.contacts[j]? = some r' →
            nameKey r'.name ≠ nameKey name) ∧
    (∀ (book : AddressBook) (name : String),
        book.find name = none ↔ ∀ r ∈ book.contacts, nameKey r.name ≠ nameKey name) ∧
    ((AddressBook.mk []).add_record (Record.new "Alice")).find "alice" =
      some (Record.new "Alice") ∧
    ((AddressBook.mk []).add_record (Record.new "Alice")).find "ALICE" =
      some (Record.new "Alice") := by
  refine ⟨?_, ?_, rfl, rfl⟩
  · intro book name r h
    rw [AddressBook.find] at h
    cases hr : book.findRef name with
    | none => rw [hr] at h; exact absurd h (by simp)
    | some ir =>
      obtain ⟨i, r0⟩ := ir
      rw [hr] at h
      have hr0 : r0 = r := by simpa using h
      subst hr0
      obtain ⟨hlt, hget, hkey, hfirst⟩ := findRef_some hr
      exact ⟨i, hget, hkey, hfirst⟩
  · intro book name
    rw [AddressBook.find, Option.map_eq_none']
    exact findRef_none_iff book name

/-- Witness for C7: on the book holding just "Bob", finding "BOB" returns
the record at index 0. -/
theorem find_first_case_insensitive_witness :
    ∃ i : Nat, (AddressBook.mk [Record.new "Bob"]).contacts[i]? = some (Record.new "Bob") ∧
      nameKey (Record.new "Bob").name = nameKey "BOB" ∧
      ∀ j : Nat, j < i → ∀ r' : Record,
        (AddressBook.mk [Record.new "Bob"]).contacts[j]? = some r' →
        nameKey r'.name ≠ nameKey "BOB" :=
  find_first_case_insensitive.1 (AddressBook.mk [Record.new "Bob"]) "BOB"
    (Record.new "Bob") rfl

/-- C10: the query handlers `phone`, `show-birthday`, `all` and `birthdays`
leave the address book unchanged. -/
theorem query_handlers_frame (args : List String) (book : AddressBook) :
    (input_error (show_phone args book)).2 = book ∧
    (input_error (show_birthday args book)).2 = book ∧
    show_all_contacts book = (.ok book.contacts, book) ∧
    (input_error (birthdays book)).2 = book := by
  refine ⟨?_, ?_, rfl, ?_⟩
  · rcases args with _ | ⟨name, _ | ⟨y, rest⟩⟩
    · rfl
    · cases hr : book.findRef name with
      | none => simp [show_phone, hr, input_error]
      | some ir =>
        obtain ⟨i, r⟩ := ir
        by_cases hp : r.phones.isEmpty <;> simp [show_phone, hr, input_error, hp]
    · rfl
  · rcases args with _ | ⟨name, _ | ⟨y, rest⟩⟩
    · rfl
    · cases hr : book.findRef name with
      | none => simp [show_birthday, hr, input_error]
      | some ir =>
        obtain ⟨i, r⟩ := ir
        cases hb : r.birthday <;> simp [show_birthday, hr, input_error, hb]
    · rfl
  · rw [birthdays]
    by_cases hb : (book.contacts.filterMap fun contact =>
        contact.birthday.map fun b => contact.name ++ ": " ++ Date.strftimeDMY b).isEmpty <;>
      simp [hb, input_error]

/-- Witness for C10 (the statement quantifies over arguments and books):
instantiated at `["x"]` and the empty book. -/
theorem query_handlers_frame_witness :
    (input_error (show_phone ["x"] ⟨[]⟩)).2 = (⟨[]⟩ : AddressBook) ∧
    (input_error (show_birthday ["x"] ⟨[]⟩)).2 = (⟨[]⟩ : AddressBook) ∧
    show_all_contacts ⟨[]⟩ = (.ok ([] : List Record), (⟨[]⟩ : AddressBook)) ∧
    (input_error (birthdays ⟨[]⟩)).2 = (⟨[]⟩ : AddressBook) := by
  have h := query_handlers_frame ["x"] ⟨[]⟩
  exact h

/-- C3: invoking `change` with a malformed new phone on a record found by
name leaves that record with an empty phone list: the handler clears the
phones before validating the replacement. -/
theorem change_malformed_clears_phones
    {book : AddressBook} {name newPhone : String} {i : Nat} {record : Record}
    (hf : book.findRef name = some (i, record))
    (hbad : ∀ p, Phone.mk? newPhone ≠ .ok p)
    (_hne : record.phones ≠ []) :
    input_error (change_contact [name, newPhone] book) =
      ("Error: " ++ phoneFormatMsg, book.setRecord i { record with phones := [] }) ∧
    (book.setRecord i { record with phones := [] }).contacts[i]? =
      some { record with phones := [] } := by
  have hmk : Phone.mk? newPhone = .error phoneFormatMsg := by
    by_cases h : newPhone.length = 10 ∧ newPhone.data.all Char.isDigit = true
    · exact absurd (by rw [Phone.mk?_spec, if_pos h]) (hbad ⟨newPhone⟩)
    · rw [Phone.mk?_spec, if_neg h]
  have hlt := (findRef_some hf).1
  constructor
  · simp [change_contact, hf, Record.add_phone, hmk, input_error]
  · rw [AddressBook.setRecord]
    exact List.getElem?_set_self (by simpa using hlt)

/-- Witness for C3: changing John's number to "abc" empties his phone list. -/
theorem change_malformed_clears_phones_witness :
    input_error (change_contact ["John", "abc"] ⟨[⟨"John", [⟨"1234567890"⟩], none⟩]⟩) =
      ("Error: " ++ phoneFormatMsg,
        (⟨[⟨"John", [⟨"1234567890"⟩], none⟩]⟩ : AddressBook).setRecord 0
          ⟨"John", [], none⟩) ∧
    ((⟨[⟨"John", [⟨"1234567890"⟩], none⟩]⟩ : AddressBook).setRecord 0
      ⟨"John", [], none⟩).contacts[0]? = some ⟨"John", [], none⟩ := by
  have h := @change_malformed_clears_phones
    ⟨[⟨"John", [⟨"1234567890"⟩], none⟩]⟩ "John" "abc"
    0 ⟨"John", [⟨"1234567890"⟩], none⟩
    rfl
    (by intro p hp; rw [show Phone.mk? "abc" = .error phoneFormatMsg from rfl] at hp;
        exact absurd hp (by simp))
    (by simp)
  exact h

/-- C9: `change` with a valid 10-digit phone on a found record replaces the
whole phone list with exactly the new phone; on a missing name nothing is
created and a not-found message is returned. -/
theorem change_valid_replaces_phones :
    (∀ (book : AddressBook) (name newPhone : String) (i : Nat) (record : Record) (p : Phone),
        book.findRef name = some (i, record) → Phone.mk? newPhone = .ok p →
        input_error (change_contact [name, newPhone] book) =
          ("Phone number changed for " ++ name ++ ".",
            book.setRecord i { record with phones := [p] }) ∧
        (book.setRecord i { record with phones := [p] }).contacts[i]? =
          some { record with phones := [p] }) ∧
    (∀ (book : AddressBook) (name newPhone : String),
        book.findRef name = none →
        input_error (change_contact [name, newPhone] book) =
          ("Contact " ++ name ++ " not found.", book)) := by
  constructor
  · intro book name newPhone i record p hf hp
    have hlt := (findRef_some hf).1
    constructor
    · simp [change_contact, hf, Record.add_phone, hp, input_error]
    · rw [AddressBook.setRecord]
      exact List.getElem?_set_self (by simpa using hlt)
  · intro book name newPhone hf
    simp [change_contact, hf, input_error]

/-- Witness for C9: changing John's number to "5555555555" leaves exactly
that number; changing a ghost contact reports not-found. -/
theorem change_valid_replaces_phones_witness :
    input_error (change_contact ["John", "5555555555"]
        ⟨[⟨"John", [⟨"1234567890"⟩, ⟨"0987654321"⟩], none⟩]⟩) =
      ("Phone number changed for John.",
        (⟨[⟨"John", [⟨"1234567890"⟩, ⟨"0987654321"⟩], none⟩]⟩ : AddressBook).setRecord 0
          ⟨"John", [⟨"5555555555"⟩], none⟩) ∧
    input_error (change_contact ["Ghost", "5555555555"] ⟨[]⟩) =
      ("Contact Ghost not found.", (⟨[]⟩ : AddressBook)) := by
  have h1 := (change_valid_replaces_phones.1
    ⟨[⟨"John", [⟨"1234567890"⟩, ⟨"0987654321"⟩], none⟩]⟩ "John" "5555555555" 0
    ⟨"John", [⟨"1234567890"⟩, ⟨"0987654321"⟩], none⟩ ⟨"5555555555"⟩ rfl rfl).1
  have h2 := change_valid_replaces_phones.2 ⟨[]⟩ "Ghost" "5555555555" rfl
  exact ⟨h1, h2⟩

theorem Phone.mk?_ok_inv {value : String} {p : Phone}
    (h : Phone.mk? value = .ok p) :
    p = ⟨value⟩ ∧ value.length = 10 ∧ value.data.all Char.isDigit = true := by
  rw [Phone.mk?_spec] at h
  by_cases hc : value.length = 10 ∧ value.data.all Char.isDigit = true
  · rw [if_pos hc] at h
    exact ⟨(Except.ok.inj h).symm, hc.1, hc.2⟩
  · rw [if_neg hc] at h
    exact absurd h (by simp)

theorem Phone.mk?_ok_ne_empty {value : String} {p : Phone}
    (h : Phone.mk? value = .ok p) : (value == "") = false := by
  have h10 := (Phone.mk?_ok_inv h).2.1
  by_contra hb
  rw [Bool.not_eq_false, beq_iff_eq] at hb
  subst hb
  simp at h10

theorem Record.add_phone_ok_inv {r : Record} {value : String} {r' : Record}
    (h : r.add_phone value = .ok r') :
    r' = { r with phones := r.phones ++ [⟨value⟩] } ∧
      (r.phones.any fun p => p.value == value) = false ∧
      value.length = 10 ∧ value.data.all Char.isDigit = true := by
  rw [Record.add_phone_spec] at h
  by_cases h1 : (r.phones.any fun p => p.value == value) = true
  · rw [if_pos h1] at h
    exact absurd h (by simp)
  · rw [if_neg h1] at h
    by_cases h2 : value.length = 10 ∧ value.data.all Char.isDigit = true
    · rw [if_pos h2] at h
      exact ⟨(Except.ok.inj h).symm, Bool.not_eq_true _ ▸ h1, h2.1, h2.2⟩
    · rw [if_neg h2] at h
      exact absurd h (by simp)

/-- C8: with at least two arguments and a valid phone, `add` creates and
fills a fresh record when the name is unknown ("Contact added. Phone
number: ..."), appends the phone to an existing record when the name is
known ("Contact updated. Phone number: ...", keeping the earlier phones),
and with fewer than two arguments returns the usage string. -/
theorem add_contact_spec :
    (∀ (name phone : String) (rest : List String) (book : AddressBook) (p : Phone),
        Phone.mk? phone = .ok p → book.findRef name = none →
        input_error (add_contact (name :: phone :: rest) book) =
          ("Contact added. Phone number: " ++ phone,
            book.add_record ⟨name, [p], none⟩)) ∧
    (∀ (name phone : String) (rest : List String) (book : AddressBook)
        (p : Phone) (i : Nat) (record r2 : Record),
        Phone.mk? phone = .ok p → book.findRef name = some (i, record) →
        record.add_phone phone = .ok r2 →
        input_error (add_contact (name :: phone :: rest) book) =
          ("Contact updated. Phone number: " ++ phone, book.setRecord i r2) ∧
          r2.phones = record.phones ++ [p]) ∧
    (∀ (args : List String) (book : AddressBook), args.length < 2 →
        input_error (add_contact args book) =
          ("Invalid command. Use \x27add [name] [phone]\x27.", book)) := by
  have hlit1 : ("Contact added." ++ " Phone number: " : String) =
      "Contact added. Phone number: " := rfl
  have hlit2 : ("Contact updated." ++ " Phone number: " : String) =
      "Contact updated. Phone number: " := rfl
  refine ⟨?_, ?_, ?_⟩
  · intro name phone rest book p hp hf
    obtain ⟨rfl, -, -⟩ := Phone.mk?_ok_inv hp
    have hne := Phone.mk?_ok_ne_empty hp
    have hadd : (Record.new name).add_phone phone = .ok ⟨name, [⟨phone⟩], none⟩ := by
      simp [Record.add_phone, Record.new, hp]
    simp [add_contact, hf, hne, hadd, input_error, hlit1]
  · intro name phone rest book p i record r2 hp hf hadd
    obtain ⟨rfl, -, -⟩ := Phone.mk?_ok_inv hp
    have hne := Phone.mk?_ok_ne_empty hp
    refine ⟨?_, ?_⟩
    · simp [add_contact, hf, hne, hadd, input_error, hlit2]
    · rw [(Record.add_phone_ok_inv hadd).1]
  · intro args book hlen
    rcases args with _ | ⟨a, _ | ⟨b, r⟩⟩
    · rfl
    · rfl
    · simp only [List.length_cons] at hlen
      omega

/-- Witness for C8: adding John with a fresh valid phone reports "Contact
added.", adding a second valid phone reports "Contact updated." and keeps
both, and a bare `add` returns the usage string. -/
theorem add_contact_spec_witness :
    input_error (add_contact ["John", "1234567890"] ⟨[]⟩) =
      ("Contact added. Phone number: 1234567890",
        (⟨[]⟩ : AddressBook).add_record ⟨"John", [⟨"1234567890"⟩], none⟩) ∧
    (input_error (add_contact ["John", "0987654321"]
        ⟨[⟨"John", [⟨"1234567890"⟩], none⟩]⟩) =
      ("Contact updated. Phone number: 0987654321",
        (⟨[⟨"John", [⟨"1234567890"⟩], none⟩]⟩ : AddressBook).setRecord 0
          ⟨"John", [⟨"1234567890"⟩, ⟨"0987654321"⟩], none⟩) ∧
      (⟨"John", [⟨"1234567890"⟩, ⟨"0987654321"⟩], none⟩ : Record).phones =
        [⟨"1234567890"⟩] ++ [⟨"0987654321"⟩]) ∧
    input_error (add_contact [] ⟨[]⟩) =
      ("Invalid command. Use \x27add [name] [phone]\x27.", (⟨[]⟩ : AddressBook)) := by
  refine ⟨?_, ?_, ?_⟩
  · exact add_contact_spec.1 "John" "1234567890" [] ⟨[]⟩ ⟨"1234567890"⟩ rfl rfl
  · exact add_contact_spec.2.1 "John" "0987654321" [] ⟨[⟨"John", [⟨"1234567890"⟩], none⟩]⟩
      ⟨"0987654321"⟩ 0 ⟨"John", [⟨"1234567890"⟩], none⟩
      ⟨"John", [⟨"1234567890"⟩, ⟨"0987654321"⟩], none⟩ rfl rfl rfl
  · exact add_contact_spec.2.2 [] ⟨[]⟩ (by simp)

/-- C6 counterexample: on a phone-less record, "abc" equals no existing
phone value, yet `add_phone` does not append it: it fails with the
phone-format error (which differs from the duplicate-phone error). -/
theorem add_phone_nondup_not_appended :
    (Record.new "A").add_phone "abc" = .error phoneFormatMsg ∧
    ((Record.new "A").phones.any fun p => p.value == "abc") = false ∧
    phoneFormatMsg ≠ phoneExistsMsg :=
  ⟨rfl, rfl, by decide⟩

/-- C6 amended: `add_phone` fails with "Phone number already exists."
exactly when some existing phone equals the input by string equality
(leaving the list unchanged); otherwise a valid 10-digit value is appended
at the end, while a malformed value fails with the phone-format message;
and after a successful append, adding the same value again fails with the
duplicate message. -/
theorem add_phone_full_spec :
    (∀ (r : Record) (value : String),
        (∃ p ∈ r.phones, p.value = value) →
        r.add_phone value = .error phoneExistsMsg) ∧
    (∀ (r : Record) (value : String),
        ¬(∃ p ∈ r.phones, p.value = value) →
        (value.length = 10 ∧ value.data.all Char.isDigit = true) →
        r.add_phone value = .ok { r with phones := r.phones ++ [⟨value⟩] }) ∧
    (∀ (r : Record) (value : String),
        ¬(∃ p ∈ r.phones, p.value = value) →
        ¬(value.length = 10 ∧ value.data.all Char.isDigit = true) →
        r.add_phone value = .error phoneFormatMsg) ∧
    (∀ (r r1 : Record) (value : String),
        r.add_phone value = .ok r1 →
        r1.phones = r.phones ++ [⟨value⟩] ∧
        r1.add_phone value = .error phoneExistsMsg) := by
  have hany_true : ∀ (r : Record) (value : String),
      (∃ p ∈ r.phones, p.value = value) →
      (r.phones.any fun p => p.value == value) = true := by
    intro r value ⟨p, hp, he⟩
    rw [List.any_eq_true]
    exact ⟨p, hp, beq_iff_eq.mpr he⟩
  have hany_false : ∀ (r : Record) (value : String),
      ¬(∃ p ∈ r.phones, p.value = value) →
      ¬((r.phones.any fun p => p.value == value) = true) := by
    intro r value hne hany
    rw [List.any_eq_true] at hany
    obtain ⟨p, hp, he⟩ := hany
    exact hne ⟨p, hp, beq_iff_eq.mp he⟩
  refine ⟨?_, ?_, ?_, ?_⟩
  · intro r value hex
    rw [Record.add_phone_spec, if_pos (hany_true r value hex)]
  · intro r value hne hval
    rw [Record.add_phone_spec, if_neg (hany_false r value hne), if_pos hval]
  · intro r value hne hval
    rw [Record.add_phone_spec, if_neg (hany_false r value hne), if_neg hval]
  · intro r r1 value h
    obtain ⟨rfl, -, -, -⟩ := Record.add_phone_ok_inv h
    refine ⟨rfl, ?_⟩
    rw [Record.add_phone_spec, if_pos ?_]
    rw [List.any_eq_true]
    exact ⟨⟨value⟩, by simp, by simp⟩

/-- Witness for C6: duplicate "1234567890" is rejected; a fresh
"1234567890" is appended; after one successful append a second identical
append fails with the duplicate message and the list stays at length 1. -/
theorem add_phone_full_spec_witness :
    (⟨"A", [⟨"1234567890"⟩], none⟩ : Record).add_phone "1234567890" =
      .error phoneExistsMsg ∧
    (Record.new "A").add_phone "1234567890" = .ok ⟨"A", [⟨"1234567890"⟩], none⟩ ∧
    (⟨"A", [⟨"1234567890"⟩], none⟩ : Record).phones = [⟨"1234567890"⟩] := by
  refine ⟨?_, ?_, ?_⟩
  · exact add_phone_full_spec.1 ⟨"A", [⟨"1234567890"⟩], none⟩ "1234567890"
      ⟨⟨"1234567890"⟩, by simp, rfl⟩
  · exact add_phone_full_spec.2.1 (Record.new "A") "1234567890" (by simp [Record.new])
      (by constructor <;> rfl)
  · exact ((add_phone_full_spec.2.2.2 (Record.new "A") ⟨"A", [⟨"1234567890"⟩], none⟩
      "1234567890" rfl).1).trans rfl

/-- C1 counterexample: `add John abc` fails phone validation, yet the
freshly created record "John" has already been committed to the previously
empty book. -/
theorem add_error_commits_record :
    input_error (add_contact ["John", "abc"] ⟨[]⟩) =
      ("Error: " ++ phoneFormatMsg, ⟨[Record.new "John"]⟩) ∧
    (⟨[Record.new "John"]⟩ : AddressBook) ≠ ⟨[]⟩ :=
  ⟨rfl, by decide⟩

/-- C1 amended: an erroring `add-birthday` invocation leaves the book
exactly as it was; an erroring `add` invocation leaves the book unchanged
except that, when the name was not yet present, the freshly created
phone-less record has already been appended before the validation failure. -/
theorem error_invocations_book_state :
    (∀ (args : List String) (book : AddressBook) (e : String) (b : AddressBook),
        add_birthday args book = (.error e, b) → b = book) ∧
    (∀ (args : List String) (book : AddressBook) (e : String) (b : AddressBook),
        add_contact args book = (.error e, b) →
        b = book ∨ ∃ (name phone : String) (rest : List String),
          args = name :: phone :: rest ∧ book.findRef name = none ∧
          b = book.add_record (Record.new name)) := by
  constructor
  · intro args book e b h
    rcases args with _ | ⟨name, _ | ⟨date, _ | ⟨x, r⟩⟩⟩
    · simp [add_birthday] at h
    · simp [add_birthday] at h
    · cases hr : book.findRef name with
      | none => simp [add_birthday, hr] at h
      | some ir =>
        obtain ⟨i, record⟩ := ir
        cases hb : record.add_birthday date with
        | error e2 =>
          simp only [add_birthday, hr, hb, Prod.mk.injEq] at h
          exact h.2.symm
        | ok r2 => simp [add_birthday, hr, hb] at h
    · simp [add_birthday] at h
  · intro args book e b h
    rcases args with _ | ⟨name, _ | ⟨phone, rest⟩⟩
    · simp [add_contact] at h
    · simp [add_contact] at h
    · cases hr : book.findRef name with
      | none =>
        cases hp : phone == "" with
        | true => simp [add_contact, hr, hp] at h
        | false =>
          cases ha : (Record.new name).add_phone phone with
          | error e2 =>
            simp only [add_contact, hr, hp, Bool.false_eq_true, if_false, ha,
              Prod.mk.injEq] at h
            exact Or.inr ⟨name, phone, rest, rfl, hr, h.2.symm⟩
          | ok r2 => simp [add_contact, hr, hp, ha] at h
      | some ir =>
        obtain ⟨i, record⟩ := ir
        cases hp : phone == "" with
        | true => simp [add_contact, hr, hp] at h
        | false =>
          cases ha : record.add_phone phone with
          | error e2 =>
            simp only [add_contact, hr, hp, Bool.false_eq_true, if_false, ha,
              Prod.mk.injEq] at h
            exact Or.inl h.2.symm
          | ok r2 => simp [add_contact, hr, hp, ha] at h

/-- Witness for C1: an erroring `add-birthday` (bad date for John) leaves
the one-record book unchanged, per the amended statement. -/
theorem error_invocations_book_state_witness :
    ((⟨[Record.new "John"]⟩ : AddressBook) = ⟨[Record.new "John"]⟩) ∧
    ((⟨[Record.new "John"]⟩ : AddressBook) = ⟨[]⟩ ∨
      ∃ (name phone : String) (rest : List String),
        (["John", "abc"] : List String) = name :: phone :: rest ∧
        (⟨[]⟩ : AddressBook).findRef name = none ∧
        (⟨[Record.new "John"]⟩ : AddressBook) =
          (⟨[]⟩ : AddressBook).add_record (Record.new name)) := by
  have h1 : add_birthday ["John", "31.02.2000"] ⟨[Record.new "John"]⟩ =
      (.error dateFormatMsg, ⟨[Record.new "John"]⟩) := rfl
  have h2 := error_invocations_book_state.1 ["John", "31.02.2000"]
    ⟨[Record.new "John"]⟩ dateFormatMsg ⟨[Record.new "John"]⟩ h1
  have h3 := error_invocations_book_state.2 ["John", "abc"] ⟨[]⟩ phoneFormatMsg
    ⟨[Record.new "John"]⟩ rfl
  exact ⟨h2, h3⟩

/-- C2 counterexample: a wrong-argument-count invocation of `change`
returns the plain usage string, which does not have the "Error: " prefix
required by the uniform error-to-text claim. -/
theorem usage_result_not_error_string :
    input_error (change_contact ["x"] ⟨[]⟩) =
      ("Invalid command. Please use \x27change [name] [new_phone]\x27.", ⟨[]⟩) ∧
    ("Invalid command. Please use \x27change [name] [new_phone]\x27." : String).data.take 7 ≠
      ("Error: " : String).data :=
  ⟨rfl, by decide⟩

theorem add_phone_error_mem {r : Record} {v e : String}
    (h : r.add_phone v = .error e) : e ∈ validationMessages := by
  rw [Record.add_phone_spec] at h
  by_cases h1 : (r.phones.any fun p => p.value == v) = true
  · rw [if_pos h1] at h
    rw [← Except.error.inj h]
    simp [validationMessages]
  · rw [if_neg h1] at h
    by_cases h2 : v.length = 10 ∧ v.data.all Char.isDigit = true
    · rw [if_pos h2] at h
      exact absurd h (by simp)
    · rw [if_neg h2] at h
      rw [← Except.error.inj h]
      simp [validationMessages]

theorem add_birthday_error_mem {r : Record} {v e : String}
    (h : r.add_birthday v = .error e) : e ∈ validationMessages := by
  rw [Record.add_birthday] at h
  cases hb : Birthday.mk? v with
  | error e2 =>
    rw [hb] at h
    rw [← Except.error.inj h, Birthday.mk?_error_msg hb]
    simp [validationMessages]
  | ok d =>
    rw [hb] at h
    exact absurd h (by simp)

/-- C2 amended: no handler lets an exception escape — in the model, every
handler body yields an outcome, and the only errors ever raised are the
three `ValidationError` messages; `input_error` converts exactly those to
"Error: <description>" strings; wrong-argument-count invocations never
raise and instead return the plain "Invalid command …" usage string (for
`change`, shown here, as for the other handlers). -/
theorem handler_error_policy :
    (∀ (args : List String) (book : AddressBook),
        errOnly (add_contact args book) ∧ errOnly (change_contact args book) ∧
        errOnly (show_phone args book) ∧ errOnly (add_birthday args book) ∧
        errOnly (show_birthday args book)) ∧
    (∀ book : AddressBook, errOnly (birthdays book)) ∧
    (∀ (res : Except String String × AddressBook) (e : String) (b : AddressBook),
        res = (.error e, b) → input_error res = ("Error: " ++ e, b)) ∧
    (∀ (args : List String) (book : AddressBook), args.length ≠ 2 →
        change_contact args book =
          (.ok "Invalid command. Please use \x27change [name] [new_phone]\x27.", book)) := by
  refine ⟨?_, ?_, ?_, ?_⟩
  · intro args book
    refine ⟨?_, ?_, ?_, ?_, ?_⟩
    · intro e h
      rcases args with _ | ⟨name, _ | ⟨phone, rest⟩⟩
      · simp [add_contact] at h
      · simp [add_contact] at h
      · cases hr : book.findRef name with
        | none =>
          cases hp : phone == "" with
          | true => simp [add_contact, hr, hp] at h
          | false =>
            cases ha : (Record.new name).add_phone phone with
            | error e2 =>
              simp only [add_contact, hr, hp, Bool.false_eq_true, if_false, ha] at h
              exact Except.error.inj h ▸ add_phone_error_mem ha
            | ok r2 => simp [add_contact, hr, hp, ha] at h
        | some ir =>
          obtain ⟨i, record⟩ := ir
          cases hp : phone == "" with
          | true => simp [add_contact, hr, hp] at h
          | false =>
            cases ha : record.add_phone phone with
            | error e2 =>
              simp only [add_contact, hr, hp, Bool.false_eq_true, if_false, ha] at h
              exact Except.error.inj h ▸ add_phone_error_mem ha
            | ok r2 => simp [add_contact, hr, hp, ha] at h
    · intro e h
      rcases args with _ | ⟨name, _ | ⟨new_phone, _ | ⟨x, r⟩⟩⟩
      · simp [change_contact] at h
      · simp [change_contact] at h
      · cases hr : book.findRef name with
        | none => simp [change_contact, hr] at h
        | some ir =>
          obtain ⟨i, record⟩ := ir
          cases ha : Record.add_phone { record with phones := [] } new_phone with
          | error e2 =>
            simp only [change_contact, hr, ha] at h
            exact Except.error.inj h ▸ add_phone_error_mem ha
          | ok r2 => simp [change_contact, hr, ha] at h
      · simp [change_contact] at h
    · intro e h
      rcases args with _ | ⟨name, _ | ⟨y, rest⟩⟩
      · simp [show_phone] at h
      · cases hr : book.findRef name with
        | none => simp [show_phone, hr] at h
        | some ir =>
          obtain ⟨i, record⟩ := ir
          by_cases hp : record.phones.isEmpty <;> simp [show_phone, hr, hp] at h
      · simp [show_phone] at h
    · intro e h
      rcases args with _ | ⟨name, _ | ⟨date, _ | ⟨x, r⟩⟩⟩
      · simp [add_birthday] at h
      · simp [add_birthday] at h
      · cases hr : book.findRef name with
        | none => simp [add_birthday, hr] at h
        | some ir =>
          obtain ⟨i, record⟩ := ir
          cases hb : record.add_birthday date with
          | error e2 =>
            simp only [add_birthday, hr, hb] at h
            exact Except.error.inj h ▸ add_birthday_error_mem hb
          | ok r2 => simp [add_birthday, hr, hb] at h
      · simp [add_birthday] at h
    · intro e h
      rcases args with _ | ⟨name, _ | ⟨y, rest⟩⟩
      · simp [show_birthday] at h
      · cases hr : book.findRef name with
        | none => simp [show_birthday, hr] at h
        | some ir =>
          obtain ⟨i, record⟩ := ir
          cases hb : record.birthday <;> simp [show_birthday, hr, hb] at h
      · simp [show_birthday] at h
  · intro book e h
    rw [birthdays] at h
    by_cases hb : (book.contacts.filterMap fun contact =>
        contact.birthday.map fun b => contact.name ++ ": " ++ Date.strftimeDMY b).isEmpty <;>
      simp [hb] at h
  · intro res e b h
    rw [h]
    rfl
  · intro args book hlen
    rcases args with _ | ⟨a, _ | ⟨b2, _ | ⟨c, r⟩⟩⟩
    · rfl
    · rfl
    · exact absurd rfl hlen
    · rfl

/-- Witness for C2: on the duplicate-phone error raised by
`add John 1234567890` against a book already holding that number, the
wrapper produces exactly "Error: Phone number already exists."; and a
one-argument `change` returns the plain usage string. -/
theorem handler_error_policy_witness :
    phoneExistsMsg ∈ validationMessages ∧
    input_error (.error phoneExistsMsg, ⟨[⟨"John", [⟨"1234567890"⟩], none⟩]⟩) =
      ("Error: " ++ phoneExistsMsg, ⟨[⟨"John", [⟨"1234567890"⟩], none⟩]⟩) ∧
    change_contact ["x"] ⟨[]⟩ =
      (.ok "Invalid command. Please use \x27change [name] [new_phone]\x27.", ⟨[]⟩) := by
  have h1 := (handler_error_policy.1 ["John", "1234567890"]
    ⟨[⟨"John", [⟨"1234567890"⟩], none⟩]⟩).1 phoneExistsMsg rfl
  have h2 := handler_error_policy.2.2.1
    (.error phoneExistsMsg, ⟨[⟨"John", [⟨"1234567890"⟩], none⟩]⟩)
    phoneExistsMsg ⟨[⟨"John", [⟨"1234567890"⟩], none⟩]⟩ rfl
  have h3 := handler_error_policy.2.2.2 ["x"] ⟨[]⟩ (by simp)
  exact ⟨h1, h2, h3⟩

/-- C5 counterexample: `Birthday` accepts "1.02.1990", whose day part is a
single digit, so acceptance is not restricted to the 10-character
`DD.MM.YYYY` pattern the claim states. -/
theorem birthday_accepts_short_day :
    Birthday.mk? "1.02.1990" = .ok ⟨1990, 2, 1⟩ ∧
    ("1.02.1990" : String).length ≠ 10 :=
  ⟨rfl, by decide⟩

/-- C5 amended: `Birthday` succeeds exactly on strings of the form
day `.` month `.` year where day and month are one or two digits (values
1..31 and 1..12 as matched by `strptime`), the year is exactly four digits,
and the numbers form a valid calendar date; every other string fails with
"Invalid date format. Use DD.MM.YYYY"; and every accepted string whose day
and month are written with two digits round-trips through formatting. -/
theorem birthday_spec_full :
    (∀ (value : String) (d : Date),
        Birthday.mk? value = .ok d → birthdayAccepted value) ∧
    (∀ (value e : String),
        Birthday.mk? value = .error e →
        e = dateFormatMsg ∧ ¬ birthdayAccepted value) ∧
    (∀ (value : String) (d : Date) (ds ms ys : List Char),
        Birthday.mk? value = .ok d → splitDots value.data = [ds, ms, ys] →
        ds.length = 2 → ms.length = 2 → Date.strftimeDMY d = value) := by
  refine ⟨?_, ?_, ?_⟩
  · intro value d h
    exact Birthday.mk?_ok_accepted h
  · intro value e h
    exact ⟨Birthday.mk?_error_msg h, Birthday.mk?_error_not_accepted h⟩
  · intro value d ds ms ys hok hs hd2 hm2
    obtain ⟨a, b, c, hs2, hd, hm, hy, hvalid, rfl⟩ := Birthday.mk?_ok_split hok
    have h3 := hs.symm.trans hs2
    simp only [List.cons.injEq, and_true] at h3
    obtain ⟨h3a, h3b, h3c⟩ := h3
    subst h3a
    subst h3b
    subst h3c
    have hdd := dayTokenOk_digits hd
    have hmd := monthTokenOk_digits hm
    have hyd := yearTokenOk_digits hy
    have hy4 : ys.length = 4 := by
      simp only [yearTokenOk, Bool.and_eq_true, beq_iff_eq] at hy
      exact hy.2
    obtain ⟨x1, x2, rfl⟩ := list_of_length_two hd2
    obtain ⟨y1, y2, rfl⟩ := list_of_length_two hm2
    obtain ⟨z1, z2, z3, z4, rfl⟩ := list_of_length_four hy4
    simp only [List.all_cons, List.all_nil, Bool.and_eq_true, Bool.and_true] at hdd hmd hyd
    have hdec := ((splitDots_eq_three_iff _ _ _ _).mp hs).2.2.2
    rw [Date.strftimeDMY]
    rw [twoDigits_natOfDigits hdd.1 hdd.2, twoDigits_natOfDigits hmd.1 hmd.2,
      fourDigits_natOfDigits hyd.1 hyd.2.1 hyd.2.2.1 hyd.2.2.2]
    refine congrArg String.mk ?_
    rw [hdec]
    simp

/-- Witness for C5: "01.02.1990" is accepted, stores 1 February 1990, and
formats back to exactly "01.02.1990". -/
theorem birthday_spec_full_witness :
    birthdayAccepted "01.02.1990" ∧
    Date.strftimeDMY ⟨1990, 2, 1⟩ = "01.02.1990" := by
  refine ⟨?_, ?_⟩
  · exact birthday_spec_full.1 "01.02.1990" ⟨1990, 2, 1⟩ rfl
  · exact birthday_spec_full.2.2 "01.02.1990" ⟨1990, 2, 1⟩
      ['0', '1'] ['0', '2'] ['1', '9', '9', '0'] rfl rfl rfl rfl

end App
